import Mathlib

/-!
Verification development for the img-utils repository: a shallow embedding of
the pixel-buffer codec, the native-call argument packing, the operation
dispatch, the execution-guard protocol and the presentation-loop consumer,
with theorems settling the specification claims against the code.

Machine integers are modelled as `Nat` with an explicit `% 2^32` at the points
where the Rust code performs `u32` arithmetic or an `as u32` cast.  External
effects (the dynamically loaded native module, the file dialogs) are
parameters of the embedded functions.  Rust `f32` scalars are carried through
the code untouched, so they are modelled opaquely by their bit patterns.
-/

/-- Bit pattern of a Rust `f32` scalar.  The repository never computes with
these values, it only forwards them to the native module, so the payload is
opaque. -/
abbrev F32 := Nat

/-- `u32` multiplication as performed by release-mode Rust: the product modulo
`2^32`. -/
def u32mul (a b : Nat) : Nat := (a * b) % 4294967296

/-- `usize -> u32` cast (`bytes.len() as u32` in `to_cuda_image_data`). -/
def usizeToU32 (n : Nat) : Nat := n % 4294967296

/-- Abstract view of an `image::DynamicImage` in its RGB reading: a width, a
height and a pixel map giving the (red, green, blue) channel bytes at each
coordinate.  `DynamicImage::to_rgb8` materialises exactly this data row by
row. -/
structure Image where
  width : Nat
  height : Nat
  pix : Nat → Nat → Nat × Nat × Nat

/-- The three channel bytes of one pixel in RGB order, as laid out by the
`image` crate's raw buffer. -/
def pixelTriple (p : Nat × Nat × Nat) : List Nat := [p.1, p.2.1, p.2.2]

/-- Channel selector: channel 0 is red, 1 is green, 2 is blue. -/
def channelOf (p : Nat × Nat × Nat) : Nat → Nat
  | 0 => p.1
  | 1 => p.2.1
  | _ => p.2.2

/-- The flat raw buffer produced by `DynamicImage::to_rgb8().as_raw()`:
row-major, three bytes per pixel, alpha discarded. -/
def encodeImage (img : Image) : List Nat :=
  (List.range img.height).flatMap fun y =>
    (List.range img.width).flatMap fun x => pixelTriple (img.pix x y)

/-- Embeds `CudaImageData` (src/src/cudaimg.rs:62-68). -/
structure CudaImageData where
  bytes : List Nat
  raw_len : Nat
  width : Nat
  height : Nat
  pixel_size : Nat
deriving DecidableEq, Repr

/-- Embeds `ToCudaImageData::to_cuda_image_data` for `DynamicImage`
(src/src/cudaimg.rs:80-93): convert to rgb8, take the raw bytes, record the
length as `u32` and fix `pixel_size` at 3. -/
def to_cuda_image_data (img : Image) : CudaImageData :=
  { bytes := encodeImage img
    raw_len := usizeToU32 (encodeImage img).length
    width := img.width
    height := img.height
    pixel_size := 3 }

/-- An image reconstructed from a raw buffer
(`image::RgbImage` as built by `RgbImage::from_raw`). -/
structure RgbImage where
  width : Nat
  height : Nat
  data : List Nat
deriving DecidableEq, Repr

/-- Embeds `image::RgbImage::from_raw width height buf`: per the `image`
crate's documented semantics it succeeds exactly when the container is big
enough, i.e. when `width*height*3 <= buf.len()`, and keeps the container. -/
def rgbImageFromRaw (w h : Nat) (buf : List Nat) : Option RgbImage :=
  if w * h * 3 ≤ buf.length then some ⟨w, h, buf⟩ else none

/-- Channel byte of a reconstructed image at pixel (x, y), channel c: byte
`3*(y*width + x) + c` of the raw buffer (the `image` crate's row-major
layout). -/
def pixelAt (im : RgbImage) (x y c : Nat) : Option Nat :=
  im.data[3 * (y * im.width + x) + c]?

/-- Embeds `CudaHistogramData` (src/src/cudaimg.rs:100-102). -/
structure CudaHistogramData where
  data : List Nat
deriving DecidableEq, Repr

/-- Embeds `CudaHistogramData::default` (src/src/cudaimg.rs:104-110):
`vec![0u32; 256]`. -/
def CudaHistogramData.default : CudaHistogramData :=
  ⟨List.replicate 256 0⟩

/-! ## Native signature shapes

The `type` aliases of src/src/cudaimg.rs, recorded as lists of C parameter
kinds. -/

/-- Kinds of parameters appearing in the native entry-point signatures. -/
inductive CParam where
  | mutBytesPtr
  | mutU32Ptr
  | u32
  | f32
deriving DecidableEq, Repr

/-- The common signature head shared by every entry point:
(pointer-to-mutable-bytes, total-byte-length, byte-stride-width, height). -/
def sigHead : List CParam := [.mutBytesPtr, .u32, .u32, .u32]

/-- Embeds the `InvertImageFn` type alias (src/src/cudaimg.rs:7). -/
def InvertImageFn : List CParam := [.mutBytesPtr, .u32, .u32, .u32]

/-- Embeds the `GammaTransformImage` type alias (src/src/cudaimg.rs:10-11). -/
def GammaTransformImage : List CParam := [.mutBytesPtr, .u32, .u32, .u32, .f32]

/-- Embeds the `LogarithmicTransformImage` type alias
(src/src/cudaimg.rs:14-15). -/
def LogarithmicTransformImage : List CParam := [.mutBytesPtr, .u32, .u32, .u32, .f32]

/-- Embeds the `GrayscaleImageFn` type alias (src/src/cudaimg.rs:18-19). -/
def GrayscaleImageFn : List CParam := [.mutBytesPtr, .u32, .u32, .u32]

/-- Embeds the `ComputeHistogramFn` type alias (src/src/cudaimg.rs:22-28):
the histogram output pointer is the third parameter, before the stride-width
and the height. -/
def ComputeHistogramFn : List CParam := [.mutBytesPtr, .u32, .mutU32Ptr, .u32, .u32]

/-- Embeds the `BalanceHistogramFn` type alias (src/src/cudaimg.rs:31-32). -/
def BalanceHistogramFn : List CParam := [.mutBytesPtr, .u32, .u32, .u32]

/-- Embeds the `BoxFilterFn` type alias (src/src/cudaimg.rs:35-36). -/
def BoxFilterFn : List CParam := [.mutBytesPtr, .u32, .u32, .u32, .u32]

/-- Embeds the `GaussFilterFn` type alias (src/src/cudaimg.rs:39-46): after
the common head it takes `filter_size: u32` and then `sigma: f32` — two
trailing scalars. -/
def GaussFilterFn : List CParam := [.mutBytesPtr, .u32, .u32, .u32, .u32, .f32]

/-! ## Argument packing

The argument tuples each wrapper of src/src/cudaimg.rs passes to its resolved
native entry point, in call-site order. -/

/-- One argument value observed by the native module.  Pointers are abstract
(the pointee is tracked separately); `u32` and `f32` scalars carry their
values. -/
inductive ArgVal where
  | imagePtr
  | histPtr
  | u32 (n : Nat)
  | f32 (bits : F32)
deriving DecidableEq, Repr

/-- Arguments of the `invertImage` call (src/src/cudaimg.rs:131-139):
pointer, `raw_len`, `width * pixel_size`, `height`. -/
def invertImageArgs (img : CudaImageData) : List ArgVal :=
  [.imagePtr, .u32 img.raw_len, .u32 (u32mul img.width img.pixel_size), .u32 img.height]

/-- Arguments of the `gammaTransformImage` call (src/src/cudaimg.rs:176-184). -/
def gammaTransformImageArgs (img : CudaImageData) (gamma : F32) : List ArgVal :=
  [.imagePtr, .u32 img.raw_len, .u32 (u32mul img.width img.pixel_size), .u32 img.height,
   .f32 gamma]

/-- Arguments of the `logarithmicTransformImage` call
(src/src/cudaimg.rs:221-229). -/
def logarithmicTransformImageArgs (img : CudaImageData) (base : F32) : List ArgVal :=
  [.imagePtr, .u32 img.raw_len, .u32 (u32mul img.width img.pixel_size), .u32 img.height,
   .f32 base]

/-- Arguments of the `grayscaleImage` call (src/src/cudaimg.rs:260-267). -/
def grayscaleImageArgs (img : CudaImageData) : List ArgVal :=
  [.imagePtr, .u32 img.raw_len, .u32 (u32mul img.width img.pixel_size), .u32 img.height]

/-- Arguments of the `computeHistogram` call (src/src/cudaimg.rs:304-312):
the histogram pointer is inserted as the third argument, before the
stride-width. -/
def computeHistogramArgs (img : CudaImageData) : List ArgVal :=
  [.imagePtr, .u32 img.raw_len, .histPtr, .u32 (u32mul img.width img.pixel_size),
   .u32 img.height]

/-- Arguments of the `balanceHistogram` call (src/src/cudaimg.rs:390-396). -/
def balanceHistogramArgs (img : CudaImageData) : List ArgVal :=
  [.imagePtr, .u32 img.raw_len, .u32 (u32mul img.width img.pixel_size), .u32 img.height]

/-- Arguments of the `boxFilter` call (src/src/cudaimg.rs:422-429). -/
def boxFilterArgs (img : CudaImageData) (filter_size : Nat) : List ArgVal :=
  [.imagePtr, .u32 img.raw_len, .u32 (u32mul img.width img.pixel_size), .u32 img.height,
   .u32 filter_size]

/-- Arguments of the `gaussFilter` call (src/src/cudaimg.rs:456-464):
`filter_size` and then `sigma` follow the common head. -/
def gaussFilterArgs (img : CudaImageData) (filter_size : Nat) (sigma : F32) : List ArgVal :=
  [.imagePtr, .u32 img.raw_len, .u32 (u32mul img.width img.pixel_size), .u32 img.height,
   .u32 filter_size, .f32 sigma]

/-! ## Native function resolution and the wrappers -/

/-- The loaded native module as seen through `libloading::Library`: the set of
symbol names it exports.  The kernels behind the symbols are external and are
passed separately as parameters of the wrappers. -/
structure Library where
  symbols : List String
deriving DecidableEq, Repr

/-- Embeds `Library::get`: exact byte-string symbol lookup, `Err` when the
symbol is absent. -/
def Library.get (lib : Library) (name : String) : Option Unit :=
  if name ∈ lib.symbols then some () else none

/-- Errors returned (as `anyhow::Result::Err`) by the wrappers: the only
fallible step short of a panic is symbol resolution via the `?` operator. -/
inductive CudaError where
  | symbolNotFound (name : String)
deriving DecidableEq, Repr

/-- Outcome of running a Rust function that may return `Ok`, return `Err`, or
panic (an `expect`/`unwrap` firing). -/
inductive RustOutcome (α : Type) where
  | ok (val : α)
  | err (e : CudaError)
  | panicked (msg : String)
deriving DecidableEq, Repr

/-- Functorial action on the `ok` value of a `RustOutcome`. -/
def RustOutcome.map (f : α → β) : RustOutcome α → RustOutcome β
  | .ok a => .ok (f a)
  | .err e => .err e
  | .panicked m => .panicked m

/-- Message of the `expect` guarding `RgbImage::from_raw` in every
image-returning wrapper of src/src/cudaimg.rs. -/
def fromRawPanicMsg : String := "Failed to create the modified image from bytes"

/-- Common body of the seven image-returning wrappers of src/src/cudaimg.rs
(they are textually identical up to the symbol name and the packed
arguments): resolve the symbol (`Err` on failure via `?`), encode the image,
invoke the native kernel on the buffer, rebuild an `RgbImage` from the
mutated bytes — panicking via `expect` when `from_raw` returns `None` — and
return it.  `nat_fn` is the external kernel: it observes the packed argument
tuple and transforms the byte buffer in place. -/
def imageOpViaSymbol (lib : Library) (symbol : String)
    (nat_fn : List ArgVal → List Nat → List Nat)
    (argsOf : CudaImageData → List ArgVal) (image : Image) : RustOutcome RgbImage :=
  match lib.get symbol with
  | none => .err (.symbolNotFound symbol)
  | some _ =>
    let img := to_cuda_image_data image
    let bytes' := nat_fn (argsOf img) img.bytes
    match rgbImageFromRaw img.width img.height bytes' with
    | some out => .ok out
    | none => .panicked fromRawPanicMsg

/-- Embeds `invert_image` (src/src/cudaimg.rs:122-148). -/
def invert_image (lib : Library) (nat_fn : List ArgVal → List Nat → List Nat)
    (image : Image) : RustOutcome RgbImage :=
  imageOpViaSymbol lib "invertImage" nat_fn invertImageArgs image

/-- Embeds `gamma_transform_image` (src/src/cudaimg.rs:161-193). -/
def gamma_transform_image (lib : Library) (nat_fn : List ArgVal → List Nat → List Nat)
    (image : Image) (gamma : F32) : RustOutcome RgbImage :=
  imageOpViaSymbol lib "gammaTransformImage" nat_fn
    (fun img => gammaTransformImageArgs img gamma) image

/-- Embeds `logarithmic_transform_image` (src/src/cudaimg.rs:206-238). -/
def logarithmic_transform_image (lib : Library)
    (nat_fn : List ArgVal → List Nat → List Nat) (image : Image) (base : F32) :
    RustOutcome RgbImage :=
  imageOpViaSymbol lib "logarithmicTransformImage" nat_fn
    (fun img => logarithmicTransformImageArgs img base) image

/-- Embeds `grayscale_image` (src/src/cudaimg.rs:250-276). -/
def grayscale_image (lib : Library) (nat_fn : List ArgVal → List Nat → List Nat)
    (image : Image) : RustOutcome RgbImage :=
  imageOpViaSymbol lib "grayscaleImage" nat_fn grayscaleImageArgs image

/-- Embeds `compute_histogram` (src/src/cudaimg.rs:288-315): allocate a fresh
`CudaHistogramData::default()`, encode the image, invoke the native kernel —
which observes the packed arguments and fills the histogram buffer — and
return the histogram.  The pixel buffer's post-call contents are dropped.
`nat_fn` receives the argument tuple, the image bytes and the histogram
buffer, and yields the written histogram contents. -/
def compute_histogram (lib : Library)
    (nat_fn : List ArgVal → List Nat → List Nat → List Nat) (image : Image) :
    RustOutcome CudaHistogramData :=
  match lib.get "computeHistogram" with
  | none => .err (.symbolNotFound "computeHistogram")
  | some _ =>
    let histogram := CudaHistogramData.default
    let img := to_cuda_image_data image
    .ok ⟨nat_fn (computeHistogramArgs img) img.bytes histogram.data⟩

/-- Embeds `balance_image_histogram` (src/src/cudaimg.rs:376-406). -/
def balance_image_histogram (lib : Library)
    (nat_fn : List ArgVal → List Nat → List Nat) (image : Image) : RustOutcome RgbImage :=
  imageOpViaSymbol lib "balanceHistogram" nat_fn balanceHistogramArgs image

/-- Embeds `box_filter` (src/src/cudaimg.rs:408-439). -/
def box_filter (lib : Library) (nat_fn : List ArgVal → List Nat → List Nat)
    (image : Image) (filter_size : Nat) : RustOutcome RgbImage :=
  imageOpViaSymbol lib "boxFilter" nat_fn
    (fun img => boxFilterArgs img filter_size) image

/-- Embeds `gauss_filter` (src/src/cudaimg.rs:441-474): takes both a
`filter_size` and a `sigma` and forwards both after the common head. -/
def gauss_filter (lib : Library) (nat_fn : List ArgVal → List Nat → List Nat)
    (image : Image) (filter_size : Nat) (sigma : F32) : RustOutcome RgbImage :=
  imageOpViaSymbol lib "gaussFilter" nat_fn
    (fun img => gaussFilterArgs img filter_size sigma) image

/-- Modelled from the spec: the Sobel edge-detection wrapper is declared by
its caller in src/src/app.rs but its definition is not under src/.  Per the
spec signature table it takes the common head and no trailing scalars, so its
argument packing mirrors `invert_image`. -/
def sobelArgs (img : CudaImageData) : List ArgVal :=
  [.imagePtr, .u32 img.raw_len, .u32 (u32mul img.width img.pixel_size), .u32 img.height]

/-- Modelled from the spec: Sobel edge-detection wrapper (not under src/),
shaped like the other no-trailing-scalar wrappers. -/
def sobel_edge_detection (lib : Library) (nat_fn : List ArgVal → List Nat → List Nat)
    (image : Image) : RustOutcome RgbImage :=
  imageOpViaSymbol lib "sobelEdgeDetection" nat_fn sobelArgs image

/-- Modelled from the spec: Laplace edge-detection argument packing (wrapper
not under src/); common head, no trailing scalars. -/
def laplaceArgs (img : CudaImageData) : List ArgVal :=
  [.imagePtr, .u32 img.raw_len, .u32 (u32mul img.width img.pixel_size), .u32 img.height]

/-- Modelled from the spec: Laplace edge-detection wrapper (not under src/). -/
def laplace_edge_detection (lib : Library) (nat_fn : List ArgVal → List Nat → List Nat)
    (image : Image) : RustOutcome RgbImage :=
  imageOpViaSymbol lib "laplaceEdgeDetection" nat_fn laplaceArgs image

/-- Modelled from the spec: Harris corner-detection argument packing (wrapper
not under src/); common head, no trailing scalars. -/
def harrisArgs (img : CudaImageData) : List ArgVal :=
  [.imagePtr, .u32 img.raw_len, .u32 (u32mul img.width img.pixel_size), .u32 img.height]

/-- Modelled from the spec: Harris corner-detection wrapper (not under src/). -/
def harris_corner_detection (lib : Library) (nat_fn : List ArgVal → List Nat → List Nat)
    (image : Image) : RustOutcome RgbImage :=
  imageOpViaSymbol lib "harrisCornerDetection" nat_fn harrisArgs image

/-! ## The operation enumeration and the dispatcher -/

/-- Modelled from the spec: the `ImageProcessingFunction` enum is applied in
src/src/app.rs but declared outside src/.  Variants and their scalar
parameters follow spec section 3 and the constructor applications visible in
src/src/app.rs (in particular `GaussianBlur(sigma)` carries the single scalar
`sigma`). -/
inductive ImageProcessingFunction where
  | Invert
  | GammaTransform (gamma : F32)
  | LogarithmicTransform (base : F32)
  | Grayscale
  | ComputeHistogram
  | BalanceHistogram
  | BoxFilter (size : Nat)
  | GaussianBlur (sigma : F32)
  | SobelEdgeDetection
  | LaplaceEdgeDetection
  | HarrisCornerDetection
deriving DecidableEq, Repr

/-- The scalar parameters carried by each operation variant, by kind. -/
def variantScalarParams : ImageProcessingFunction → List CParam
  | .Invert => []
  | .GammaTransform _ => [.f32]
  | .LogarithmicTransform _ => [.f32]
  | .Grayscale => []
  | .ComputeHistogram => []
  | .BalanceHistogram => []
  | .BoxFilter _ => [.u32]
  | .GaussianBlur _ => [.f32]
  | .SobelEdgeDetection => []
  | .LaplaceEdgeDetection => []
  | .HarrisCornerDetection => []

/-- The external native kernels, one per entry point.  Image kernels observe
the packed arguments and transform the byte buffer; the histogram kernel
additionally receives and fills the histogram buffer. -/
structure NativeBackend where
  invertImage : List ArgVal → List Nat → List Nat
  gammaTransformImage : List ArgVal → List Nat → List Nat
  logarithmicTransformImage : List ArgVal → List Nat → List Nat
  grayscaleImage : List ArgVal → List Nat → List Nat
  computeHistogram : List ArgVal → List Nat → List Nat → List Nat
  balanceHistogram : List ArgVal → List Nat → List Nat
  boxFilter : List ArgVal → List Nat → List Nat
  gaussFilter : List ArgVal → List Nat → List Nat
  sobelEdgeDetection : List ArgVal → List Nat → List Nat
  laplaceEdgeDetection : List ArgVal → List Nat → List Nat
  harrisCornerDetection : List ArgVal → List Nat → List Nat

/-- Result of one dispatch: a displayable image for every variant except
`ComputeHistogram`, a histogram buffer for `ComputeHistogram`. -/
inductive DispatchOutput where
  | image (i : RgbImage)
  | histogram (h : CudaHistogramData)
deriving DecidableEq, Repr

/-- Modelled from the spec: the `process_image` dispatcher is called from
src/src/app.rs but defined outside src/.  Per spec section 4.3 it routes each
variant to its wrapper; each routed-to wrapper present under src/ is the
source embedding above.  `gaussSize` is the filter size the dispatcher
supplies to `gauss_filter` alongside the variant's `sigma` (the variant
itself carries no filter size). -/
def process_image (lib : Library) (nb : NativeBackend) (gaussSize : Nat)
    (op : ImageProcessingFunction) (image : Image) : RustOutcome DispatchOutput :=
  match op with
  | .Invert => (invert_image lib nb.invertImage image).map .image
  | .GammaTransform gamma =>
      (gamma_transform_image lib nb.gammaTransformImage image gamma).map .image
  | .LogarithmicTransform base =>
      (logarithmic_transform_image lib nb.logarithmicTransformImage image base).map .image
  | .Grayscale => (grayscale_image lib nb.grayscaleImage image).map .image
  | .ComputeHistogram => (compute_histogram lib nb.computeHistogram image).map .histogram
  | .BalanceHistogram =>
      (balance_image_histogram lib nb.balanceHistogram image).map .image
  | .BoxFilter size => (box_filter lib nb.boxFilter image size).map .image
  | .GaussianBlur sigma =>
      (gauss_filter lib nb.gaussFilter image gaussSize sigma).map .image
  | .SobelEdgeDetection =>
      (sobel_edge_detection lib nb.sobelEdgeDetection image).map .image
  | .LaplaceEdgeDetection =>
      (laplace_edge_detection lib nb.laplaceEdgeDetection image).map .image
  | .HarrisCornerDetection =>
      (harris_corner_detection lib nb.harrisCornerDetection image).map .image

/-- The packed argument tuple each variant's dispatch passes to the native
entry point. -/
def packedArgs (gaussSize : Nat) (op : ImageProcessingFunction)
    (img : CudaImageData) : List ArgVal :=
  match op with
  | .Invert => invertImageArgs img
  | .GammaTransform gamma => gammaTransformImageArgs img gamma
  | .LogarithmicTransform base => logarithmicTransformImageArgs img base
  | .Grayscale => grayscaleImageArgs img
  | .ComputeHistogram => computeHistogramArgs img
  | .BalanceHistogram => balanceHistogramArgs img
  | .BoxFilter size => boxFilterArgs img size
  | .GaussianBlur sigma => gaussFilterArgs img gaussSize sigma
  | .SobelEdgeDetection => sobelArgs img
  | .LaplaceEdgeDetection => laplaceArgs img
  | .HarrisCornerDetection => harrisArgs img

/-- Position of the byte-stride-width argument in each variant's packed
tuple: fourth for `ComputeHistogram` (after the inserted histogram pointer),
third for every other variant. -/
def strideIdx : ImageProcessingFunction → Nat
  | .ComputeHistogram => 3
  | _ => 2

/-- Position of the height argument in each variant's packed tuple. -/
def heightIdx : ImageProcessingFunction → Nat
  | .ComputeHistogram => 4
  | _ => 3

/-- The stride-width argument a variant's dispatch passes. -/
def strideArgOf (gaussSize : Nat) (op : ImageProcessingFunction)
    (img : CudaImageData) : Option ArgVal :=
  (packedArgs gaussSize op img)[strideIdx op]?

/-- The height argument a variant's dispatch passes. -/
def heightArgOf (gaussSize : Nat) (op : ImageProcessingFunction)
    (img : CudaImageData) : Option ArgVal :=
  (packedArgs gaussSize op img)[heightIdx op]?

/-! ## The execution guard protocol

Every spawn site in `MyApp::draw_top_panel` (src/src/app.rs) runs the same
shared-flag protocol around its work:

  while *op_in_progress.lock().unwrap() { sleep(100ms) }   -- observe
  *op_in_progress.lock().unwrap() = true;                  -- claim
  ... let library = library.lock().await; <native call> ...-- borrow module
  *op_in_progress.lock().unwrap() = false;                 -- release

Each mutex-protected access is one atomic action, but the observe and the
claim are separate acquisitions of the mutex.  The model below interleaves
two such units of work (A and B) over the shared flag and the tokio mutex
guarding the `Library`. -/

/-- Program counter of one unit of work running the guard protocol.
`checking`: about to read the flag inside the wait loop; `claiming`: has
observed `Free` and is about to set the flag; `acquiring`: has set the flag
and is awaiting `library.lock()`; `critical`: holds the library lock (the
native call runs here); `unlocking`: native call done, about to drop the
library lock; `clearing`: about to reset the flag; `finished`: done. -/
inductive LPC where
  | checking
  | claiming
  | acquiring
  | critical
  | unlocking
  | clearing
  | finished
deriving DecidableEq, Repr

/-- Shared state of two concurrent units of work: the `op_in_progress` flag,
whether the `Library` tokio mutex is held, and each task's program
counter. -/
structure LSys where
  guard : Bool
  libHeld : Bool
  pcA : LPC
  pcB : LPC
deriving DecidableEq, Repr

/-- One atomic action of a task at program counter `pc`: returns the new
flag, lock state and program counter.  A `checking` task that observes the
flag set stays in the wait loop; an `acquiring` task blocks while the library
mutex is held. -/
def taskStep (guard libHeld : Bool) (pc : LPC) : Bool × Bool × LPC :=
  match pc with
  | .checking => if guard then (guard, libHeld, .checking) else (guard, libHeld, .claiming)
  | .claiming => (true, libHeld, .acquiring)
  | .acquiring => if libHeld then (guard, libHeld, .acquiring) else (guard, true, .critical)
  | .critical => (guard, libHeld, .unlocking)
  | .unlocking => (guard, false, .clearing)
  | .clearing => (false, libHeld, .finished)
  | .finished => (guard, libHeld, .finished)

/-- Scheduler step: `true` lets task A act, `false` lets task B act. -/
def lstep (s : LSys) (a : Bool) : LSys :=
  if a then
    let r := taskStep s.guard s.libHeld s.pcA
    { guard := r.1, libHeld := r.2.1, pcA := r.2.2, pcB := s.pcB }
  else
    let r := taskStep s.guard s.libHeld s.pcB
    { guard := r.1, libHeld := r.2.1, pcA := s.pcA, pcB := r.2.2 }

/-- Run a schedule from a state. -/
def lrun (s : LSys) (tr : List Bool) : LSys := tr.foldl lstep s

/-- Initial state: flag `Free`, library lock free, both tasks entering their
wait loops. -/
def linit : LSys := { guard := false, libHeld := false, pcA := .checking, pcB := .checking }

/-- A task at these program counters has claimed the flag (set it `Busy`)
and not yet released it. -/
def activeGuard : LPC → Bool
  | .acquiring => true
  | .critical => true
  | .unlocking => true
  | .clearing => true
  | _ => false

/-- Both tasks have claimed the flag at once. -/
def bothActive (s : LSys) : Bool := activeGuard s.pcA && activeGuard s.pcB

/-- A task at these program counters holds the library tokio mutex. -/
def holdsLib : LPC → Bool
  | .critical => true
  | .unlocking => true
  | _ => false

/-- Both tasks are inside the native call (both hold the module) at once. -/
def bothCritical (s : LSys) : Bool := holdsLib s.pcA && holdsLib s.pcB

/-- Inductive invariant: the library-lock bit agrees with the program
counters and at most one task holds the lock. -/
def linv (s : LSys) : Bool :=
  (s.libHeld == (holdsLib s.pcA || holdsLib s.pcB)) && !(holdsLib s.pcA && holdsLib s.pcB)

/-! ## The spawned operation task body

The body each Tools-menu click spawns (e.g. src/src/app.rs:145-175), after
the wait loop has exited and the flag has been claimed: dispatch the
operation, `expect` the result (panicking on `Err`), send the completion on
the channel, and only then reset the flag.  There is no scope-bound (Drop)
guard: on a panic the trailing reset is never executed. -/

/-- Embeds `ImageProcessingTask` as used in src/src/app.rs: results carried
by the async channel.  Durations are opaque tick counts. -/
inductive ImageProcessingTask where
  | OpenImage (image : RgbImage) (path : String)
  | OperationFinished (image : RgbImage) (duration : Nat)
deriving DecidableEq, Repr

/-- Observable end state of one spawned operation task: the flag value it
leaves behind, the messages it sent, and whether it panicked. -/
structure TaskEnd where
  guard : Bool
  sent : List ImageProcessingTask
  panicked : Bool
deriving DecidableEq, Repr

/-- The operation task body after the flag has been claimed
(src/src/app.rs:151-174): with no image it skips to the reset; otherwise it
dispatches, panics at the `expect` if the dispatch returned `Err` (or a panic
propagates), else sends `OperationFinished` and resets the flag.  The flag is
reset only on the non-panicking paths. -/
def operationTaskBody (image : Option Image) (duration : Nat)
    (dispatch : Image → RustOutcome RgbImage) : TaskEnd :=
  match image with
  | none => { guard := false, sent := [], panicked := false }
  | some im =>
    match dispatch im with
    | .ok out =>
        { guard := false, sent := [.OperationFinished out duration], panicked := false }
    | .err _ => { guard := true, sent := [], panicked := true }
    | .panicked _ => { guard := true, sent := [], panicked := true }

/-! ## The presentation loop consumer -/

/-- The display-facing fields of `MyApp` (src/src/app.rs:12-23) touched by
the open-image handler and the consumer loop. -/
structure AppState where
  image : Option RgbImage
  modified_image : Option RgbImage
  image_path_info : Option String
  last_operation_duration : Option Nat
deriving DecidableEq, Repr

/-- Embeds the "Open Image" click handler's synchronous prefix
(src/src/app.rs:52-56): it clears the displayed image, the modified image and
the path before spawning the load task. -/
def openImageClicked (s : AppState) : AppState :=
  { s with image := none, modified_image := none, image_path_info := none }

/-- Embeds the `match` arms of `MyApp::post_update` (src/src/app.rs:680-690):
`OpenImage` replaces the displayed image and path; `OperationFinished`
replaces the modified-image slot and the duration. -/
def applyTask (s : AppState) (t : ImageProcessingTask) : AppState :=
  match t with
  | .OpenImage img path => { s with image := some img, image_path_info := some path }
  | .OperationFinished img d =>
      { s with modified_image := some img, last_operation_duration := some d }

/-- Embeds `MyApp::post_update` (src/src/app.rs:677-692): drain every
currently queued task result (`while let Ok(result) = self.rx.try_recv()`),
applying each in arrival order. -/
def post_update (s : AppState) (queued : List ImageProcessingTask) : AppState :=
  queued.foldl applyTask s

/-- The image of an `OperationCompleted` result, if the result is one. -/
def finishedImage : ImageProcessingTask → Option RgbImage
  | .OperationFinished img _ => some img
  | _ => none

/-! ## Codec lemmas -/

/-! ## Concrete fixtures and auxiliary definitions -/

/-- A concrete 2x2 image used to instantiate theorems. -/
def img22 : Image := ⟨2, 2, fun x y => (40 * x + 10 * y + 7, 128, 255)⟩

/-- A library exporting none of the entry points. -/
def emptyLib : Library := ⟨[]⟩

/-- A library exporting all eleven entry points. -/
def fullLib : Library :=
  ⟨["invertImage", "gammaTransformImage", "logarithmicTransformImage", "grayscaleImage",
    "computeHistogram", "balanceHistogram", "boxFilter", "gaussFilter",
    "sobelEdgeDetection", "laplaceEdgeDetection", "harrisCornerDetection"]⟩

/-- A mock kernel that leaves the byte buffer unchanged. -/
def idNative : List ArgVal → List Nat → List Nat := fun _ bytes => bytes

/-! ## Guard-protocol lemmas -/

/-- A mock kernel returning a buffer one byte smaller than the 2x2 image
needs. -/
def shrinkNative : List ArgVal → List Nat → List Nat := fun _ _ => List.replicate 11 0

/-- A mock kernel returning a buffer one byte larger than the 2x2 image
needs. -/
def growNative : List ArgVal → List Nat → List Nat := fun _ _ => List.replicate 13 0

/-- The native backend never resizes the byte buffer it mutates: each image
kernel's output has the input buffer's length (the FFI contract of spec
section 3; the kernels themselves are external). -/
def lengthPreserving (nb : NativeBackend) : Prop :=
  (∀ a b, (nb.invertImage a b).length = b.length) ∧
  (∀ a b, (nb.gammaTransformImage a b).length = b.length) ∧
  (∀ a b, (nb.logarithmicTransformImage a b).length = b.length) ∧
  (∀ a b, (nb.grayscaleImage a b).length = b.length) ∧
  (∀ a b, (nb.balanceHistogram a b).length = b.length) ∧
  (∀ a b, (nb.boxFilter a b).length = b.length) ∧
  (∀ a b, (nb.gaussFilter a b).length = b.length) ∧
  (∀ a b, (nb.sobelEdgeDetection a b).length = b.length) ∧
  (∀ a b, (nb.laplaceEdgeDetection a b).length = b.length) ∧
  (∀ a b, (nb.harrisCornerDetection a b).length = b.length)

/-- A mock backend whose kernels leave every buffer unchanged. -/
def idBackend : NativeBackend :=
  { invertImage := fun _ b => b
    gammaTransformImage := fun _ b => b
    logarithmicTransformImage := fun _ b => b
    grayscaleImage := fun _ b => b
    computeHistogram := fun _ _ hist => hist
    balanceHistogram := fun _ b => b
    boxFilter := fun _ b => b
    gaussFilter := fun _ b => b
    sobelEdgeDetection := fun _ b => b
    laplaceEdgeDetection := fun _ b => b
    harrisCornerDetection := fun _ b => b }

/-- A stale completion: the image produced by an operation submitted against
the previously loaded image. -/
def staleResult : RgbImage := ⟨1, 1, [1, 2, 3]⟩

/-- The previously displayed image. -/
def oldDisplayed : RgbImage := ⟨1, 1, [7, 7, 7]⟩

/-- The image of the last `OperationFinished` among the drained results, if
any. -/
def lastCompletion (ts : List ImageProcessingTask) : Option RgbImage :=
  (ts.filterMap finishedImage).getLast?

/-! ## Codec lemmas -/

/-- Length of a `flatMap` over `List.range` whose chunks all have length
`k`. -/
theorem length_range_flatMap {α : Type} (n k : Nat) (f : Nat → List α)
    (h : ∀ i, i < n → (f i).length = k) :
    ((List.range n).flatMap f).length = n * k := by
  induction n with
  | zero => simp
  | succ m ih =>
    rw [List.range_succ, List.flatMap_append, List.length_append,
      ih (fun i hi => h i (Nat.lt_succ_of_lt hi))]
    simp [h m (Nat.lt_succ_self m)]
    ring

/-- Indexing into a `flatMap` over `List.range` with uniform chunk length
`k`: position `q*k + r` lands at offset `r` of chunk `q`. -/
theorem getElem_range_flatMap {α : Type} (n k q r : Nat) (f : Nat → List α)
    (h : ∀ i, i < n → (f i).length = k) (hq : q < n) (hr : r < k) :
    ((List.range n).flatMap f)[q * k + r]? = (f q)[r]? := by
  induction n with
  | zero => omega
  | succ m ih =>
    rw [List.range_succ, List.flatMap_append]
    rcases Nat.lt_or_ge q m with hqm | hqm
    · have hlen : ((List.range m).flatMap f).length = m * k :=
        length_range_flatMap m k f (fun i hi => h i (Nat.lt_succ_of_lt hi))
      rw [List.getElem?_append_left]
      · exact ih (fun i hi => h i (Nat.lt_succ_of_lt hi)) hqm
      · rw [hlen]
        calc q * k + r < q * k + k := by omega
          _ = (q + 1) * k := by ring
          _ ≤ m * k := Nat.mul_le_mul_right k hqm
    · have hq' : q = m := by omega
      subst hq'
      have hlen : ((List.range q).flatMap f).length = q * k :=
        length_range_flatMap q k f (fun i hi => h i (Nat.lt_succ_of_lt hi))
      rw [List.getElem?_append_right (by rw [hlen]; omega), hlen]
      have hidx : q * k + r - q * k = r := by omega
      rw [hidx]
      simp

/-- The encoded buffer has one byte per channel of every pixel. -/
theorem encodeImage_length (im : Image) :
    (encodeImage im).length = im.height * (im.width * 3) := by
  unfold encodeImage
  apply length_range_flatMap
  intro y hy
  exact length_range_flatMap im.width 3 _ (fun j hj => rfl)

/-- Byte `3*(y*width + x) + c` of the encoded buffer is channel `c` of pixel
`(x, y)`. -/
theorem encodeImage_getElem (im : Image) (x y c : Nat)
    (hx : x < im.width) (hy : y < im.height) (hc : c < 3) :
    (encodeImage im)[3 * (y * im.width + x) + c]? = some (channelOf (im.pix x y) c) := by
  unfold encodeImage
  have hidx : 3 * (y * im.width + x) + c = y * (im.width * 3) + (x * 3 + c) := by ring
  rw [hidx,
    getElem_range_flatMap im.height (im.width * 3) y (x * 3 + c)
      (fun yy => (List.range im.width).flatMap fun xx => pixelTriple (im.pix xx yy))
      (fun i hi =>
        length_range_flatMap im.width 3 (fun xx => pixelTriple (im.pix xx i))
          (fun j hj => rfl))
      hy (by omega),
    getElem_range_flatMap im.width 3 x c (fun xx => pixelTriple (im.pix xx y))
      (fun j hj => rfl) hx hc]
  interval_cases c <;> rfl


/-! ## Guard-protocol lemmas and the claims -/

/-- The inductive invariant holds initially. -/
theorem linv_init : linv linit = true := by decide

/-- The inductive invariant is preserved by every atomic action of either
task. -/
theorem linv_step (s : LSys) (a : Bool) (h : linv s = true) : linv (lstep s a) = true := by
  rcases s with ⟨g, lh, pa, pb⟩
  revert h
  cases a <;> cases g <;> cases lh <;> cases pa <;> cases pb <;> decide

/-- The inductive invariant holds along every schedule. -/
theorem linv_run (tr : List Bool) : ∀ s, linv s = true → linv (lrun s tr) = true := by
  induction tr with
  | nil => exact fun s h => h
  | cons a tl ih => exact fun s h => ih (lstep s a) (linv_step s a h)

/-- Under the invariant, the two tasks are never both inside the native
call. -/
theorem linv_no_double (s : LSys) (h : linv s = true) : bothCritical s = false := by
  rcases s with ⟨g, lh, pa, pb⟩
  revert h
  cases g <;> cases lh <;> cases pa <;> cases pb <;> decide

/-- Claim C1 (counterexample): the claim says no interleaving of the
wait-then-claim protocol lets two units of work both observe `Free` and both
proceed past the claim.  The schedule A-check, B-check, A-claim, B-claim does
exactly that: both tasks observe the flag `Free` before either sets it, and
both end up having claimed it (`bothActive`). -/
theorem c1_counterexample :
    bothActive (lrun linit [true, false, true, false]) = true := by decide

/-- Claim C1 (amended): the `Free -> Busy` transition is not atomic — the
observe and the claim are separate lock acquisitions, so an interleaving
exists in which both units of work observe `Free` and both claim the flag —
but at most one unit of work is inside the native call at any instant, because
the `Library` itself sits behind a separate tokio mutex. -/
theorem c1_amended :
    (∃ tr : List Bool, bothActive (lrun linit tr) = true) ∧
    (∀ tr : List Bool, bothCritical (lrun linit tr) = false) := by
  constructor
  · exact ⟨[true, false, true, false], by decide⟩
  · exact fun tr => linv_no_double _ (linv_run tr linit linv_init)

/-- Claim C2 (code bug): the spec requires the guard to return to `Free` on
every exit path via a scope-bound guarantee.  In the code the reset
`*op_in_progress = false` is the last statement of the task body with no Drop
guard, and a failed dispatch panics at the `expect` before reaching it: the
task ends with the flag still `Busy`, and a later task polling the flag stays
in its wait loop forever (second conjunct: a waiting task's step is the
identity while the flag is set). -/
theorem c2_bug :
    operationTaskBody (some img22) 5 (fun im => invert_image emptyLib idNative im) =
      { guard := true, sent := [], panicked := true } ∧
    lstep { guard := true, libHeld := false, pcA := .critical, pcB := .checking } false =
      { guard := true, libHeld := false, pcA := .critical, pcB := .checking } := by
  constructor
  · decide
  · decide

/-- Claim C3: for every operation variant and every input image, the
stride-width argument passed to the native entry point is `width * 3` (bytes
per row, `pixel_size` being 3), never the raw pixel width, and the height
argument is the pixel height.  The hypothesis keeps the `u32` multiplication
`width * pixel_size` from wrapping. -/
theorem c3_stride (gs : Nat) (op : ImageProcessingFunction) (im : Image)
    (h : im.width * 3 < 4294967296) :
    strideArgOf gs op (to_cuda_image_data im) = some (.u32 (im.width * 3)) ∧
    heightArgOf gs op (to_cuda_image_data im) = some (.u32 im.height) ∧
    (0 < im.width → im.width * 3 ≠ im.width) := by
  have hmod : u32mul im.width 3 = im.width * 3 := by
    unfold u32mul
    exact Nat.mod_eq_of_lt h
  refine ⟨?_, ?_, fun hw => by omega⟩
  · cases op <;>
      simp [strideArgOf, packedArgs, strideIdx, invertImageArgs, gammaTransformImageArgs,
        logarithmicTransformImageArgs, grayscaleImageArgs, computeHistogramArgs,
        balanceHistogramArgs, boxFilterArgs, gaussFilterArgs, sobelArgs, laplaceArgs,
        harrisArgs, to_cuda_image_data, hmod]
  · cases op <;>
      simp [heightArgOf, packedArgs, heightIdx, invertImageArgs, gammaTransformImageArgs,
        logarithmicTransformImageArgs, grayscaleImageArgs, computeHistogramArgs,
        balanceHistogramArgs, boxFilterArgs, gaussFilterArgs, sobelArgs, laplaceArgs,
        harrisArgs, to_cuda_image_data]

/-- Witness for C3: on the concrete 2x2 RGB image the Invert dispatch passes
stride 6 and height 2. -/
theorem c3_stride_witness :
    strideArgOf 3 .Invert (to_cuda_image_data img22) = some (.u32 6) ∧
    heightArgOf 3 .Invert (to_cuda_image_data img22) = some (.u32 2) := by
  have h := c3_stride 3 .Invert img22 (by decide)
  exact ⟨h.1, h.2.1⟩

/-- Claim C4 (counterexample): the claim says the GaussianBlur entry point
has exactly one trailing scalar after the common (pointer, length, stride,
height) head.  The `GaussFilterFn` signature recorded in src/src/cudaimg.rs
has two trailing scalars — `filter_size: u32` and then `sigma: f32`. -/
theorem c4_counterexample :
    (GaussFilterFn.drop 4).length = 2 ∧
    GaussFilterFn = [.mutBytesPtr, .u32, .u32, .u32, .u32, .f32] := by decide

/-- Claim C4 (amended): the GaussianBlur operation variant carries the single
scalar `sigma`, but the native `gaussFilter` entry point takes two trailing
scalars after the common head — `filter_size: u32` then `sigma: f32` — and
the wrapper forwards both. -/
theorem c4_amended :
    GaussFilterFn = sigHead ++ [CParam.u32, CParam.f32] ∧
    (∀ sigma : F32, variantScalarParams (.GaussianBlur sigma) = [CParam.f32]) ∧
    (∀ (img : CudaImageData) (fs : Nat) (sigma : F32),
      gaussFilterArgs img fs sigma =
        [.imagePtr, .u32 img.raw_len, .u32 (u32mul img.width img.pixel_size),
         .u32 img.height, .u32 fs, .f32 sigma]) :=
  ⟨by decide, fun _ => rfl, fun _ _ _ => rfl⟩

/-- Claim C5: encoding an image to the flat RGB buffer and reconstructing an
image from that buffer with the same width and height (no native call in
between) succeeds and reproduces every RGB channel value of every pixel
exactly. -/
theorem c5_roundtrip (im : Image) (x y c : Nat)
    (hx : x < im.width) (hy : y < im.height) (hc : c < 3) :
    rgbImageFromRaw im.width im.height (to_cuda_image_data im).bytes =
      some ⟨im.width, im.height, encodeImage im⟩ ∧
    pixelAt ⟨im.width, im.height, encodeImage im⟩ x y c =
      some (channelOf (im.pix x y) c) := by
  constructor
  · have hlen : (encodeImage im).length = im.width * im.height * 3 := by
      rw [encodeImage_length]; ring
    unfold rgbImageFromRaw to_cuda_image_data
    rw [if_pos (le_of_eq hlen.symm)]
  · unfold pixelAt
    exact encodeImage_getElem im x y c hx hy hc

/-- Witness for C5: the round trip on the concrete 2x2 image reproduces the
red channel of pixel (1, 1). -/
theorem c5_roundtrip_witness :
    rgbImageFromRaw img22.width img22.height (to_cuda_image_data img22).bytes =
      some ⟨img22.width, img22.height, encodeImage img22⟩ ∧
    pixelAt ⟨img22.width, img22.height, encodeImage img22⟩ 1 1 0 =
      some (channelOf (img22.pix 1 1) 0) :=
  c5_roundtrip img22 1 1 0 (by decide) (by decide) (by decide)

/-- Claim C6 (counterexample): the claim says every post-call buffer whose
length differs from `width*height*pixelSize` makes decode fail with a
recoverable FormatError.  On the 2x2 image (12 expected bytes) a 13-byte
post-call buffer is accepted outright (`from_raw` only requires the container
to be big enough), and an 11-byte buffer makes the wrapper panic at the
`expect` — no error value is ever returned to the caller. -/
theorem c6_counterexample :
    invert_image fullLib growNative img22 = .ok ⟨2, 2, List.replicate 13 0⟩ ∧
    invert_image fullLib shrinkNative img22 = .panicked fromRawPanicMsg := by
  constructor
  · decide
  · decide

/-- Claim C6 (amended): the post-call decode step fails only when the buffer
is smaller than `width*height*pixelSize` (a larger buffer is accepted and
kept), and the failure is a panic at the `expect` — aborting that unit of
work — not a FormatError returned to the caller. -/
theorem c6_amended (lib : Library) (nat_fn : List ArgVal → List Nat → List Nat)
    (im : Image) (hsym : "invertImage" ∈ lib.symbols) :
    invert_image lib nat_fn im =
      if im.width * im.height * 3 ≤
          (nat_fn (invertImageArgs (to_cuda_image_data im)) (encodeImage im)).length
      then .ok ⟨im.width, im.height,
        nat_fn (invertImageArgs (to_cuda_image_data im)) (encodeImage im)⟩
      else .panicked fromRawPanicMsg := by
  have hbody : invert_image lib nat_fn im =
      match rgbImageFromRaw im.width im.height
          (nat_fn (invertImageArgs (to_cuda_image_data im)) (encodeImage im)) with
      | some out => .ok out
      | none => .panicked fromRawPanicMsg := by
    unfold invert_image imageOpViaSymbol Library.get
    rw [if_pos hsym]
    rfl
  rw [hbody]
  unfold rgbImageFromRaw
  by_cases hc : im.width * im.height * 3 ≤
      (nat_fn (invertImageArgs (to_cuda_image_data im)) (encodeImage im)).length
  · rw [if_pos hc, if_pos hc]
  · rw [if_neg hc, if_neg hc]

/-- Witness for C6 (amended): the characterization instantiated at the full
library, the identity kernel and the 2x2 image. -/
theorem c6_amended_witness :
    invert_image fullLib idNative img22 =
      if img22.width * img22.height * 3 ≤
          (idNative (invertImageArgs (to_cuda_image_data img22)) (encodeImage img22)).length
      then .ok ⟨img22.width, img22.height,
        idNative (invertImageArgs (to_cuda_image_data img22)) (encodeImage img22)⟩
      else .panicked fromRawPanicMsg :=
  c6_amended fullLib idNative img22 (by decide)

/-- Claim C7: every ComputeHistogram dispatch allocates a fresh
zero-initialized 256-entry histogram buffer, passes its pointer as the third
argument of the native call — after the image pointer and the total byte
length, before the stride-width — and returns the (native-populated)
histogram buffer rather than the pixel buffer. -/
theorem c7_histogram (lib : Library)
    (nat_fn : List ArgVal → List Nat → List Nat → List Nat) (im : Image)
    (hsym : "computeHistogram" ∈ lib.symbols) :
    CudaHistogramData.default.data = List.replicate 256 0 ∧
    CudaHistogramData.default.data.length = 256 ∧
    (∀ i, i < 256 → CudaHistogramData.default.data[i]? = some 0) ∧
    (computeHistogramArgs (to_cuda_image_data im))[0]? = some .imagePtr ∧
    (computeHistogramArgs (to_cuda_image_data im))[1]? =
      some (.u32 (to_cuda_image_data im).raw_len) ∧
    (computeHistogramArgs (to_cuda_image_data im))[2]? = some .histPtr ∧
    (computeHistogramArgs (to_cuda_image_data im))[3]? =
      some (.u32 (u32mul im.width 3)) ∧
    compute_histogram lib nat_fn im =
      .ok ⟨nat_fn (computeHistogramArgs (to_cuda_image_data im))
        (to_cuda_image_data im).bytes (List.replicate 256 0)⟩ := by
  refine ⟨rfl, ?_, ?_, rfl, rfl, rfl, rfl, ?_⟩
  · rw [(rfl : CudaHistogramData.default.data = List.replicate 256 0)]
    exact List.length_replicate 256 0
  · intro i hi
    show (List.replicate 256 (0 : Nat))[i]? = some 0
    rw [List.getElem?_replicate]
    simp [hi]
  · unfold compute_histogram Library.get
    rw [if_pos hsym]
    rfl

/-- Witness for C7, instantiated at the full library, a constant mock kernel
and the 2x2 image. -/
theorem c7_histogram_witness :
    CudaHistogramData.default.data = List.replicate 256 0 ∧
    CudaHistogramData.default.data.length = 256 ∧
    (∀ i, i < 256 → CudaHistogramData.default.data[i]? = some 0) ∧
    (computeHistogramArgs (to_cuda_image_data img22))[0]? = some .imagePtr ∧
    (computeHistogramArgs (to_cuda_image_data img22))[1]? =
      some (.u32 (to_cuda_image_data img22).raw_len) ∧
    (computeHistogramArgs (to_cuda_image_data img22))[2]? = some .histPtr ∧
    (computeHistogramArgs (to_cuda_image_data img22))[3]? =
      some (.u32 (u32mul img22.width 3)) ∧
    compute_histogram fullLib (fun _ _ hist => hist) img22 =
      .ok ⟨(fun (_ : List ArgVal) (_ : List Nat) (hist : List Nat) => hist)
        (computeHistogramArgs (to_cuda_image_data img22))
        (to_cuda_image_data img22).bytes (List.replicate 256 0)⟩ :=
  c7_histogram fullLib (fun _ _ hist => hist) img22 (by decide)

/-- Inversion for `RustOutcome.map`: an `ok` image can only come from an `ok`
run of the underlying wrapper. -/
theorem RustOutcome.map_eq_ok {α β : Type} {f : α → β} {r : RustOutcome α} {b : β}
    (h : r.map f = .ok b) : ∃ a, r = .ok a ∧ f a = b := by
  cases r with
  | ok a =>
    refine ⟨a, rfl, ?_⟩
    cases h
    rfl
  | err e => cases h
  | panicked m => cases h

/-- Any successful run of an image-returning wrapper yields an image with the
input's width and height whose buffer satisfies the size invariant, provided
the native kernel preserves the buffer length. -/
theorem imageOpViaSymbol_ok (lib : Library) (symbol : String)
    (nat_fn : List ArgVal → List Nat → List Nat)
    (argsOf : CudaImageData → List ArgVal) (im : Image)
    (hn : ∀ a b, (nat_fn a b).length = b.length) (out : RgbImage)
    (h : imageOpViaSymbol lib symbol nat_fn argsOf im = .ok out) :
    out.width = im.width ∧ out.height = im.height ∧
    out.data.length = out.width * out.height * 3 := by
  unfold imageOpViaSymbol at h
  cases hget : lib.get symbol with
  | none => rw [hget] at h; cases h
  | some u =>
    rw [hget] at h
    simp only at h
    cases hraw : rgbImageFromRaw (to_cuda_image_data im).width (to_cuda_image_data im).height
        (nat_fn (argsOf (to_cuda_image_data im)) (to_cuda_image_data im).bytes) with
    | none => rw [hraw] at h; cases h
    | some o =>
      rw [hraw] at h
      cases h
      unfold rgbImageFromRaw at hraw
      by_cases hc : (to_cuda_image_data im).width * (to_cuda_image_data im).height * 3 ≤
          (nat_fn (argsOf (to_cuda_image_data im)) (to_cuda_image_data im).bytes).length
      · rw [if_pos hc] at hraw
        cases hraw
        refine ⟨rfl, rfl, ?_⟩
        show (nat_fn (argsOf (to_cuda_image_data im)) (to_cuda_image_data im).bytes).length =
          (to_cuda_image_data im).width * (to_cuda_image_data im).height * 3
        rw [hn]
        show (encodeImage im).length = im.width * im.height * 3
        rw [encodeImage_length]
        ring
      · rw [if_neg hc] at hraw
        cases hraw

/-- Claim C8: for every operation and input image the PixelBuffer invariant
`bytes.length = width*height*3` holds before the native call (the encoded
buffer satisfies it by construction), and — the native call never resizing
the buffer — every image-returning dispatch yields an image with the input's
width and height whose buffer again satisfies the invariant. -/
theorem c8_invariant (lib : Library) (nb : NativeBackend) (gs : Nat)
    (op : ImageProcessingFunction) (im : Image) (hnb : lengthPreserving nb) :
    (to_cuda_image_data im).bytes.length = im.width * im.height * 3 ∧
    ∀ out, process_image lib nb gs op im = .ok (.image out) →
      out.width = im.width ∧ out.height = im.height ∧
      out.data.length = out.width * out.height * 3 := by
  obtain ⟨h1, h2, h3, h4, h5, h6, h7, h8, h9, h10⟩ := hnb
  constructor
  · show (encodeImage im).length = im.width * im.height * 3
    rw [encodeImage_length]
    ring
  · intro out h
    cases op with
    | Invert =>
      obtain ⟨o, hrun, hfo⟩ := RustOutcome.map_eq_ok h
      cases hfo
      exact imageOpViaSymbol_ok lib "invertImage" nb.invertImage invertImageArgs im h1 out hrun
    | GammaTransform gamma =>
      obtain ⟨o, hrun, hfo⟩ := RustOutcome.map_eq_ok h
      cases hfo
      exact imageOpViaSymbol_ok lib "gammaTransformImage" nb.gammaTransformImage
        (fun img => gammaTransformImageArgs img gamma) im h2 out hrun
    | LogarithmicTransform base =>
      obtain ⟨o, hrun, hfo⟩ := RustOutcome.map_eq_ok h
      cases hfo
      exact imageOpViaSymbol_ok lib "logarithmicTransformImage" nb.logarithmicTransformImage
        (fun img => logarithmicTransformImageArgs img base) im h3 out hrun
    | Grayscale =>
      obtain ⟨o, hrun, hfo⟩ := RustOutcome.map_eq_ok h
      cases hfo
      exact imageOpViaSymbol_ok lib "grayscaleImage" nb.grayscaleImage grayscaleImageArgs
        im h4 out hrun
    | ComputeHistogram =>
      obtain ⟨o, hrun, hfo⟩ := RustOutcome.map_eq_ok h
      cases hfo
    | BalanceHistogram =>
      obtain ⟨o, hrun, hfo⟩ := RustOutcome.map_eq_ok h
      cases hfo
      exact imageOpViaSymbol_ok lib "balanceHistogram" nb.balanceHistogram
        balanceHistogramArgs im h5 out hrun
    | BoxFilter size =>
      obtain ⟨o, hrun, hfo⟩ := RustOutcome.map_eq_ok h
      cases hfo
      exact imageOpViaSymbol_ok lib "boxFilter" nb.boxFilter
        (fun img => boxFilterArgs img size) im h6 out hrun
    | GaussianBlur sigma =>
      obtain ⟨o, hrun, hfo⟩ := RustOutcome.map_eq_ok h
      cases hfo
      exact imageOpViaSymbol_ok lib "gaussFilter" nb.gaussFilter
        (fun img => gaussFilterArgs img gs sigma) im h7 out hrun
    | SobelEdgeDetection =>
      obtain ⟨o, hrun, hfo⟩ := RustOutcome.map_eq_ok h
      cases hfo
      exact imageOpViaSymbol_ok lib "sobelEdgeDetection" nb.sobelEdgeDetection sobelArgs
        im h8 out hrun
    | LaplaceEdgeDetection =>
      obtain ⟨o, hrun, hfo⟩ := RustOutcome.map_eq_ok h
      cases hfo
      exact imageOpViaSymbol_ok lib "laplaceEdgeDetection" nb.laplaceEdgeDetection laplaceArgs
        im h9 out hrun
    | HarrisCornerDetection =>
      obtain ⟨o, hrun, hfo⟩ := RustOutcome.map_eq_ok h
      cases hfo
      exact imageOpViaSymbol_ok lib "harrisCornerDetection" nb.harrisCornerDetection harrisArgs
        im h10 out hrun

/-- Witness for C8: the invariant instantiated at the full library, the
identity backend and the 2x2 image under the Invert operation. -/
theorem c8_invariant_witness :
    (to_cuda_image_data img22).bytes.length = img22.width * img22.height * 3 ∧
    ∀ out, process_image fullLib idBackend 3 .Invert img22 = .ok (.image out) →
      out.width = img22.width ∧ out.height = img22.height ∧
      out.data.length = out.width * out.height * 3 :=
  c8_invariant fullLib idBackend 3 .Invert img22
    ⟨fun _ _ => rfl, fun _ _ => rfl, fun _ _ => rfl, fun _ _ => rfl, fun _ _ => rfl,
     fun _ _ => rfl, fun _ _ => rfl, fun _ _ => rfl, fun _ _ => rfl, fun _ _ => rfl⟩

/-- Claim C9 (counterexample): the claim says a completion belonging to a
superseded image is discarded when it arrives at the consumer loop and never
applied to the modified-image slot.  After the user clicks Open Image (which
clears the slots), a stale `OperationFinished` drained by `post_update` is
applied unconditionally: the modified-image slot ends up holding the stale
result. -/
theorem c9_counterexample :
    (post_update
        (openImageClicked
          { image := some oldDisplayed, modified_image := none,
            image_path_info := some "old.png", last_operation_duration := none })
        [.OperationFinished staleResult 5]).modified_image = some staleResult := by
  decide

/-- Claim C9 (amended): opening a new image clears the displayed image, the
modified-image slot and the path at click time, but the consumer loop applies
every `OperationFinished` it drains to the modified-image slot
unconditionally — completions belonging to a superseded image are not
detected or discarded on arrival. -/
theorem c9_amended :
    (∀ s : AppState,
      (openImageClicked s).image = none ∧
      (openImageClicked s).modified_image = none ∧
      (openImageClicked s).image_path_info = none) ∧
    (∀ (s : AppState) (img : RgbImage) (d : Nat),
      (post_update s [.OperationFinished img d]).modified_image = some img) :=
  ⟨fun _ => ⟨rfl, rfl, rfl⟩, fun _ _ _ => rfl⟩

/-- Claim C10: one `post_update` poll drains the whole queue, and the
modified-image slot afterwards holds the image of the last `OperationFinished`
drained (each completion fully replaces the slot); if none was drained the
slot is unchanged. -/
theorem c10_last_wins (s : AppState) (ts : List ImageProcessingTask) :
    (post_update s ts).modified_image =
      match lastCompletion ts with
      | some img => some img
      | none => s.modified_image := by
  induction ts generalizing s with
  | nil => rfl
  | cons t tl ih =>
    have hstep : post_update s (t :: tl) = post_update (applyTask s t) tl := rfl
    rw [hstep, ih]
    cases t with
    | OpenImage img path =>
      have hlc : lastCompletion (.OpenImage img path :: tl) = lastCompletion tl := rfl
      rw [hlc]
      cases lastCompletion tl <;> rfl
    | OperationFinished img d =>
      have hlc : lastCompletion (.OperationFinished img d :: tl) =
          some (((tl.filterMap finishedImage).getLast?).getD img) := by
        show (img :: tl.filterMap finishedImage).getLast? = _
        rw [List.getLast?_cons]
      rw [hlc]
      cases hlast : (tl.filterMap finishedImage).getLast? with
      | none =>
        have : lastCompletion tl = none := hlast
        rw [this]
        simp [applyTask]
      | some i =>
        have : lastCompletion tl = some i := hlast
        rw [this]
        simp [hlast]
